import Mathlib

/-
  Shallow embedding of ember-serviceable-helper.

  Sources embedded:
  - src/ember-serviceable-helper/src/injection.ts
      (Storage, constructorFor, makeConstructor, isInjectable)
  - src/unnamed/part_003 (the Builder DSL: owner / service / property rules,
      into / build finalizers, getInjections closure)
  - src/unnamed/part_002 (InstantiableHelperManager: createHelper, getValue,
      helperFor)

  Modelling conventions:
  - JS object identity is modelled by allocation ids drawn from World.nextId.
  - The lazy getter closures created by Object.defineProperty are modelled as
    Getter values holding the captured owner and the captured UNINITIALIZED
    cache slot (cache = none until first read).
  - Effects (rule-set evaluation, finalize runs, service lookups, property
    callbacks, function invocations) are counted in an explicit World record.
  - Ember assert(msg, cond) throws iff the build is a development build and
    the condition is false; in production builds the whole assert call is
    stripped.  This is the dev : Bool parameter.
  - WeakMap.get with a non-object key returns undefined; WeakMap.set with a
    non-object key throws a TypeError.  Keys are Option Nat (none models the
    undefined owner reachable on the production direct-call path).
-/

namespace ESH

/-- An Ember Owner: an opaque object (identified by id) whose destroyable
lifecycle flags this system only observes via isDestroying / isDestroyed. -/
structure Owner where
  id : Nat
  destroying : Bool
  destroyed : Bool
  deriving DecidableEq, Repr

/-- JS values, as far as the claims need them: undefined, numbers, strings,
owner references, and plain objects used as named-argument mappings. -/
inductive Value where
  | undef : Value
  | num : Int → Value
  | str : String → Value
  | ownerV : Owner → Value
  | dict : List (String × Value) → Value

/-- A property getter as produced by the builder rules.  The ow field is the
owner captured by the defineProperty closure; the cache field is the closure
variable initialised to UNINITIALIZED (none) and set on first read.  dataG
models an ordinary data property (not produced by any rule; needed to give
assignment semantics on non-rule properties). -/
inductive Getter where
  | ownerG : Option Owner → Getter
  | serviceG : Option Owner → String → Option Value → Getter
  | computeG : Option Owner → Nat → Option Value → Getter
  | dataG : Value → Getter

/-- The cache slot of a lazy getter, none for owner-alias and data props. -/
def Getter.cacheOf : Getter → Option Value
  | .serviceG _ _ c => c
  | .computeG _ _ c => c
  | _ => none

/-- One named property of an injections bag. -/
structure BagProp where
  name : String
  getter : Getter

/-- An injections bag: a fresh object per owner, identified by id, carrying
its defined properties and its Object.freeze flag. -/
structure Bag where
  id : Nat
  props : List BagProp
  frozen : Bool

/-- Errors: the development-build assertion failures of injection.ts and
manager.ts, plus a JS TypeError (thrown by WeakMap.set on a non-object key,
by Object.defineProperty on a frozen object, and by strict-mode assignment
to a frozen or getter-only property). -/
inductive Err where
  | assertDestroying
  | assertDestroyed
  | assertNoContext
  | assertInvalidContext
  | assertNotInjectable
  | typeError
  deriving DecidableEq, Repr

/-- Object.defineProperty at the property-list level.  A rule getter is
installed with a descriptor whose configurable attribute defaults to false,
so redefining an existing accessor property throws a TypeError; a data
property created by plain assignment is configurable and may be redefined;
a fresh name is appended. -/
def definePropertyCore : List BagProp → String → Getter → Except Err (List BagProp)
  | [], n, g => .ok [⟨n, g⟩]
  | p :: ps, n, g =>
    if p.name = n then
      match p.getter with
      | .dataG _ => .ok (⟨n, g⟩ :: ps)
      | _ => .error .typeError
    else
      match definePropertyCore ps n g with
      | .error e => .error e
      | .ok qs => .ok (p :: qs)

/-- Writing a getter's captured closure slot (or a data property's value) in
place: not a property redefinition, so it succeeds regardless of
configurability or freezing, and never adds a property. -/
def setGetter : List BagProp → String → Getter → List BagProp
  | [], _, _ => []
  | p :: ps, n, g => if p.name = n then ⟨n, g⟩ :: ps else p :: setGetter ps n g

/-- Property lookup on a bag's property list. -/
def findProp : List BagProp → String → Option Getter
  | [], _ => none
  | p :: ps, n => if p.name = n then some p.getter else findProp ps n

/-- Object.defineProperty on a bag: throws TypeError when the bag is frozen
(non-configurable properties, non-extensible object), else defines, which
itself throws on an existing non-configurable accessor. -/
def defineProperty (b : Bag) (n : String) (g : Getter) : Except Err Bag :=
  if b.frozen then .error .typeError
  else
    match definePropertyCore b.props n g with
    | .error e => .error e
    | .ok qs => .ok { b with props := qs }

/-- Ordinary JS assignment (bag.n = v).  Assigning to an accessor property
without a setter throws in strict mode and is a silent no-op otherwise; the
same holds for adding or overwriting a property of a frozen object. -/
def assign (strict : Bool) (b : Bag) (n : String) (v : Value) : Except Err Bag :=
  match findProp b.props n with
  | some (.dataG _) =>
    if b.frozen then
      if strict then .error .typeError else .ok b
    else .ok { b with props := setGetter b.props n (.dataG v) }
  | some _ => if strict then .error .typeError else .ok b
  | none =>
    if b.frozen then
      if strict then .error .typeError else .ok b
    else .ok { b with props := b.props ++ [⟨n, .dataG v⟩] }

/-- A builder rule (DefineInjectedProperty): owner alias, service lookup, or
computed property.  Property callbacks are referenced by id, resolved by the
environment. -/
inductive Rule where
  | ownerR : Rule
  | serviceR : String → String → Rule
  | propertyR : String → Nat → Rule
  deriving DecidableEq, Repr

/-- The property name a rule defines. -/
def Rule.propName : Rule → String
  | .ownerR => "owner"
  | .serviceR p _ => p
  | .propertyR n _ => n

/-- The getter a rule's defineProperty call installs, capturing the owner
passed to the rule; service and computed getters start UNINITIALIZED. -/
def Rule.getter : Rule → Option Owner → Getter
  | .ownerR, ow => .ownerG ow
  | .serviceR _ s, ow => .serviceG ow s none
  | .propertyR _ cb, ow => .computeG ow cb none

/-- An immutable builder: the accumulated readonly rule list. -/
structure Builder where
  properties : List Rule

/-- Builder.owner(): a new builder with an owner-alias rule appended. -/
def Builder.owner (b : Builder) : Builder :=
  ⟨b.properties ++ [.ownerR]⟩

/-- Builder.service(propertyName, serviceName): a new builder with a
service-lookup rule appended (the one-argument overload passes the property
name for both). -/
def Builder.service (b : Builder) (propertyName serviceName : String) : Builder :=
  ⟨b.properties ++ [.serviceR propertyName serviceName]⟩

/-- Builder.property(name, callback): a new builder with a computed-property
rule appended. -/
def Builder.property (b : Builder) (n : String) (cb : Nat) : Builder :=
  ⟨b.properties ++ [.propertyR n cb]⟩

/-- Instrumented world: the allocation counter for object identities, and
invocation counters for the effects the claims talk about.  buildCount and
finCount are keyed by the (optional) owner id the storage was called with;
lookupCount by owner id and the full lookup string; cbCount by property
callback id; buildCbCount by build-callback id; callCount by the identity of
the injected function being invoked. -/
structure World where
  nextId : Nat
  buildCount : Option Nat → Nat
  finCount : Option Nat → Nat
  lookupCount : Nat → String → Nat
  cbCount : Nat → Nat
  buildCbCount : Nat → Nat
  callCount : Nat → Nat

/-- The world with no allocations and all counters at zero. -/
def World.init : World :=
  ⟨0, fun _ => 0, fun _ => 0, fun _ _ => 0, fun _ => 0, fun _ => 0, fun _ => 0⟩

/-- Run the accumulated rules in order against a fresh bag under
construction, each defining its property on the bag; a rule whose property
name was already defined makes Object.defineProperty throw, aborting the
build. -/
def runRules (ow : Option Owner) : List Rule → List BagProp → Except Err (List BagProp)
  | [], ps => .ok ps
  | r :: rs, ps =>
    match definePropertyCore ps r.propName (r.getter ow) with
    | .error e => .error e
    | .ok ps1 => runRules ow rs ps1

/-- The closure returned by Builder.getInjections: allocate a fresh empty
object, run every rule against it in order (propagating a thrown TypeError),
and Object.freeze the result. -/
def buildBag (ow : Option Owner) (rules : List Rule) (w : World) :
    Except Err (Bag × World) :=
  match runRules ow rules [] with
  | .error e => .error e
  | .ok ps => .ok (⟨w.nextId, ps, true⟩, { w with nextId := w.nextId + 1 })

/-- The external collaborators: the owner's service lookup, the user's
property callbacks (this = the bag, argument = the owner), the functions
passed to into (this = the bag), the callables returned by build callbacks,
and the owner-resolution function over context-object ids. -/
structure Env where
  lookup : Nat → String → Value
  callback : Nat → Bag → Option Owner → Value
  userFn : Nat → Bag → List Value → Value
  builtFn : Nat → Bag → List Value → Value
  getOwner : Nat → Option Owner

/-- Bump the per-(owner, lookup-string) service-lookup counter. -/
def bumpLookup (w : World) (o : Nat) (k : String) : World :=
  { w with lookupCount := fun x y =>
      if x = o ∧ y = k then w.lookupCount x y + 1 else w.lookupCount x y }

/-- Bump the property-callback counter. -/
def bumpCb (w : World) (cb : Nat) : World :=
  { w with cbCount := fun x => if x = cb then w.cbCount x + 1 else w.cbCount x }

/-- Reading a property of a bag: a missing property reads as undefined; an
owner-alias getter returns the captured owner; service and computed getters
run their lookup or callback on first read, store the result in their cache
slot, and afterwards return the cached value.  A service getter whose
captured owner is undefined throws (property access on undefined). -/
def readProp (env : Env) (b : Bag) (n : String) (w : World) :
    Except Err (Value × Bag × World) :=
  match findProp b.props n with
  | none => .ok (.undef, b, w)
  | some (.dataG v) => .ok (v, b, w)
  | some (.ownerG ow) =>
    .ok ((match ow with | some o => .ownerV o | none => .undef), b, w)
  | some (.serviceG _ _ (some v)) => .ok (v, b, w)
  | some (.serviceG ow sn none) =>
    match ow with
    | none => .error .typeError
    | some o =>
      let v := env.lookup o.id ("service:" ++ sn)
      .ok (v, { b with props := setGetter b.props n (.serviceG ow sn (some v)) },
        bumpLookup w o.id ("service:" ++ sn))
  | some (.computeG _ _ (some v)) => .ok (v, b, w)
  | some (.computeG ow cb none) =>
    let v := env.callback cb b ow
    .ok (v, { b with props := setGetter b.props n (.computeG ow cb (some v)) },
      bumpCb w cb)

/-- The finalize strategy handed to Storage: into wraps a user function to be
bound to the bag; build references a user callback that, applied once to the
bag, yields the callable. -/
inductive Finalize where
  | intoF : Nat → Finalize
  | buildF : Nat → Finalize
  deriving DecidableEq, Repr

/-- The semantics of an injected function: either fn.bind(injections) for an
into-function, or the callable a build callback returned over the bag. -/
inductive FnSem where
  | bound : Nat → Bag → FnSem
  | built : Nat → Bag → FnSem

/-- The bag an injected function was derived from. -/
def FnSem.bagOf : FnSem → Bag
  | .bound _ b => b
  | .built _ b => b

/-- An injected function: a fresh function object (id) with its semantics. -/
structure Injected where
  id : Nat
  sem : FnSem

/-- Run the finalize strategy on a bag: into allocates the bound function
without calling the user function; build invokes the build callback once
(counted) and its returned callable is a fresh function object. -/
def runFinalize (fin : Finalize) (injections : Bag) (w : World) : Injected × World :=
  match fin with
  | .intoF f => (⟨w.nextId, .bound f injections⟩, { w with nextId := w.nextId + 1 })
  | .buildF c =>
    (⟨w.nextId, .built c injections⟩,
      { w with
        nextId := w.nextId + 1
        buildCbCount := fun x => if x = c then w.buildCbCount x + 1 else w.buildCbCount x })

/-- Invoke an injected function with an argument list: runs the underlying
user code on the bag it closed over, and counts the invocation against the
function's identity. -/
def applyInjected (env : Env) (inj : Injected) (args : List Value) (w : World) :
    Value × World :=
  ((match inj.sem with
    | .bound f bag => env.userFn f bag args
    | .built c bag => env.builtFn c bag args),
    { w with callCount := fun x => if x = inj.id then w.callCount x + 1 else w.callCount x })

/-- Association-list lookup (first match wins), the read half of WeakMap. -/
def alGet {α : Type} : List (Nat × α) → Nat → Option α
  | [], _ => none
  | p :: ps, k => if p.1 = k then some p.2 else alGet ps k

/-- WeakMap.get: a non-object key (undefined owner) silently reads as
absent. -/
def wmGet {α : Type} (m : List (Nat × α)) : Option Nat → Option α
  | none => none
  | some k => alGet m k

/-- WeakMap.set: throws TypeError on a non-object key, else stores. -/
def wmSet {α : Type} (m : List (Nat × α)) (key : Option Nat) (v : α) :
    Except Err (List (Nat × α)) :=
  match key with
  | none => .error .typeError
  | some k => .ok ((k, v) :: m)

/-- isDestroying lifted to the possibly-undefined owner (Ember's check on a
non-destroyable reads as false). -/
def isDestroyingO : Option Owner → Bool
  | none => false
  | some o => o.destroying

/-- isDestroyed lifted to the possibly-undefined owner. -/
def isDestroyedO : Option Owner → Bool
  | none => false
  | some o => o.destroyed

/-- The owner-identity key used by the weak maps. -/
def keyId : Option Owner → Option Nat
  | none => none
  | some o => some o.id

/-- The per-constructor Storage of injection.ts: the captured getInjections
closure (here: the rule list it closed over), the captured finalize strategy,
the (never actually passed) debug name, and the two weak per-owner maps. -/
structure Storage where
  rules : List Rule
  finalize : Finalize
  sname : String
  injections : List (Nat × Bag)
  injected : List (Nat × Injected)

/-- Bump the rule-set-evaluation counter at an owner key. -/
def bumpBuild (w : World) (k : Option Nat) : World :=
  { w with buildCount := fun x => if x = k then w.buildCount x + 1 else w.buildCount x }

/-- Bump the finalize-run counter at an owner key. -/
def bumpFin (w : World) (k : Option Nat) : World :=
  { w with finCount := fun x => if x = k then w.finCount x + 1 else w.finCount x }

/-- Storage.getInjections: the two destruction asserts (active in dev builds
only), then the cache lookup; on a miss the getInjections closure runs
(counted) — a TypeError thrown mid-build propagates and nothing is cached —
and on success the bag is stored (WeakMap.set, which throws on an undefined
owner) and returned. -/
def Storage.getInjections (dev : Bool) (s : Storage) (key : Option Owner) (w : World) :
    Except Err (Bag × Storage × World) :=
  if dev && isDestroyingO key then .error .assertDestroying
  else if dev && isDestroyedO key then .error .assertDestroyed
  else
    match wmGet s.injections (keyId key) with
    | some injections => .ok (injections, s, w)
    | none =>
      match buildBag key s.rules (bumpBuild w (keyId key)) with
      | .error e => .error e
      | .ok bw =>
        match wmSet s.injections (keyId key) bw.1 with
        | .error e => .error e
        | .ok m => .ok (bw.1, { s with injections := m }, bw.2)

/-- Storage.getInjected: the same destruction asserts, then the cache lookup;
on a miss the bag is obtained through this.getInjections (building and
caching it if needed), the finalize strategy runs on it (counted), and the
result is stored and returned. -/
def Storage.getInjected (dev : Bool) (s : Storage) (key : Option Owner) (w : World) :
    Except Err (Injected × Storage × World) :=
  if dev && isDestroyingO key then .error .assertDestroying
  else if dev && isDestroyedO key then .error .assertDestroyed
  else
    match wmGet s.injected (keyId key) with
    | some injected => .ok (injected, s, w)
    | none =>
      match Storage.getInjections dev s key w with
      | .error e => .error e
      | .ok (injections, s1, w1) =>
        let iw := runFinalize s1.finalize injections w1
        let w2 := bumpFin iw.2 (keyId key)
        match wmSet s1.injected (keyId key) iw.1 with
        | .error e => .error e
        | .ok m => .ok (iw.1, { s1 with injected := m }, w2)

/-- The constructor artifact: its INJECTABLE capability marker and its
debug name (empty string when the finalized function was anonymous). -/
structure Constructor where
  injectable : Bool
  cname : String

/-- isInjectable: true iff the value carries the INJECTABLE marker. -/
def isInjectable (c : Constructor) : Bool :=
  c.injectable

/-- constructorFor: allocate the Storage (note: the name is never forwarded
to the Storage constructor, so its assert messages use the default), make the
constructor, and set the INJECTABLE marker on it before returning. -/
def constructorFor (rules : List Rule) (fin : Finalize) (n : String) :
    Constructor × Storage :=
  (⟨true, n⟩, ⟨rules, fin, "(unknown function)", [], []⟩)

/-- Instantiation mode (new.target set): new C(owner) returns
storage.getInjected(args[0]) without invoking it. -/
def constructNew (dev : Bool) (s : Storage) (arg0 : Option Owner) (w : World) :
    Except Err (Injected × Storage × World) :=
  Storage.getInjected dev s arg0 w

/-- A call-site receiver: an object (resolvable through getOwner) or any
non-object this (null, undefined, a primitive). -/
inductive Ctx where
  | obj : Nat → Ctx
  | nonObject : Ctx
  deriving DecidableEq, Repr

/-- Direct-call mode.  In a development build with a named function, the
receiver must be an object (assert), the owner-resolution function must
produce an owner from it (assert), and then the injected function for that
owner is obtained and immediately invoked with all supplied arguments.  In a
production build (or for an anonymous function in dev) the asserts are
absent: the resolved owner (possibly undefined) flows straight into
storage.getInjected. -/
def directCall (dev : Bool) (env : Env) (s : Storage) (n : String) (recv : Ctx)
    (args : List Value) (w : World) : Except Err (Value × Storage × World) :=
  if dev && (n != "") then
    match recv with
    | .nonObject => .error .assertNoContext
    | .obj i =>
      match env.getOwner i with
      | none => .error .assertInvalidContext
      | some o =>
        match Storage.getInjected dev s (some o) w with
        | .error e => .error e
        | .ok (inj, s1, w1) =>
          let vw := applyInjected env inj args w1
          .ok (vw.1, s1, vw.2)
  else
    let ow := match recv with
      | .obj i => env.getOwner i
      | .nonObject => none
    match Storage.getInjected dev s ow w with
    | .error e => .error e
    | .ok (inj, s1, w1) =>
      let vw := applyInjected env inj args w1
      .ok (vw.1, s1, vw.2)

/-- helperFor: asserts the argument is an injectable constructor, then
registers the helper manager and returns the constructor unchanged. -/
def helperFor (dev : Bool) (c : Constructor) : Except Err Constructor :=
  if dev && !(isInjectable c) then .error .assertNotInjectable else .ok c

/-- Builder.into(fn): finalize with getInjected = fn.bind, passing fn.name,
then register through helperFor. -/
def Builder.into (b : Builder) (fnId : Nat) (fnName : String) (dev : Bool) :
    Except Err (Constructor × Storage) :=
  let cs := constructorFor b.properties (.intoF fnId) fnName
  match helperFor dev cs.1 with
  | .error e => .error e
  | .ok c => .ok (c, cs.2)

/-- Builder.build(getInjected): finalize with the user's build callback,
passing its name, then register through helperFor. -/
def Builder.build (b : Builder) (cbId : Nat) (cbName : String) (dev : Bool) :
    Except Err (Constructor × Storage) :=
  let cs := constructorFor b.properties (.buildF cbId) cbName
  match helperFor dev cs.1 with
  | .error e => .error e
  | .ok c => .ok (c, cs.2)

/-- Template-call arguments: the positional list and the named mapping. -/
structure Args where
  positional : List Value
  named : List (String × Value)

/-- The manager's per-helper state: the instantiated function and the
recorded arguments. -/
structure HelperState where
  fn : Injected
  args : Args

/-- InstantiableHelperManager.createHelper: asserts the constructor is
injectable, then instantiates it (constructor mode) for the manager's owner
and records the arguments. -/
def createHelper (dev : Bool) (managerOwner : Owner) (c : Constructor) (s : Storage)
    (args : Args) (w : World) : Except Err (HelperState × Storage × World) :=
  if dev && !(isInjectable c) then .error .assertNotInjectable
  else
    match constructNew dev s (some managerOwner) w with
    | .error e => .error e
    | .ok (fn, s1, w1) => .ok (⟨fn, args⟩, s1, w1)

/-- InstantiableHelperManager.getValue: invoke the recorded function with the
positional arguments, appending the named mapping only when it has keys. -/
def getValue (env : Env) (st : HelperState) (w : World) : Value × World :=
  if st.args.named.length > 0 then
    applyInjected env st.fn (st.args.positional ++ [.dict st.args.named]) w
  else
    applyInjected env st.fn st.args.positional w

/-- Cache coherence invariant: every cached injected function's bag is the
bag cached for the same owner in the injections map. -/
def Coherent (s : Storage) : Prop :=
  ∀ k inj, alGet s.injected k = some inj → alGet s.injections k = some inj.sem.bagOf

/-- Lookup after a store at the same key. -/
lemma alGet_cons_self {α : Type} (k : Nat) (v : α) (m : List (Nat × α)) :
    alGet ((k, v) :: m) k = some v := by
  simp [alGet]

/-- Lookup after a store at a different key. -/
lemma alGet_cons_ne {α : Type} {k j : Nat} (v : α) (m : List (Nat × α)) (h : k ≠ j) :
    alGet ((k, v) :: m) j = alGet m j := by
  simp [alGet, h]

/-- For a live owner both destruction guards are inert, whatever the build
mode. -/
lemma guards_false {o : Owner} (dev : Bool)
    (h1 : o.destroying = false) (h2 : o.destroyed = false) :
    (dev && isDestroyingO (some o)) = false ∧ (dev && isDestroyedO (some o)) = false := by
  simp [isDestroyingO, isDestroyedO, h1, h2]

/-- A cached bag is returned as is whenever the guards pass: the cache hit
short-circuits the build. -/
lemma getInjections_of_cached_g {dev : Bool} {s : Storage} {o : Owner} {b : Bag} (w : World)
    (hg1 : (dev && isDestroyingO (some o)) = false)
    (hg2 : (dev && isDestroyedO (some o)) = false)
    (hc : alGet s.injections o.id = some b) :
    Storage.getInjections dev s (some o) w = .ok (b, s, w) := by
  simp [Storage.getInjections, hg1, hg2, wmGet, keyId, hc]

/-- A cached bag is returned as is for a live owner. -/
lemma getInjections_of_cached {s : Storage} {o : Owner} {b : Bag} (dev : Bool) (w : World)
    (h1 : o.destroying = false) (h2 : o.destroyed = false)
    (hc : alGet s.injections o.id = some b) :
    Storage.getInjections dev s (some o) w = .ok (b, s, w) :=
  getInjections_of_cached_g w (guards_false dev h1 h2).1 (guards_false dev h1 h2).2 hc

/-- Defining a fresh property name succeeds and appends. -/
lemma definePropertyCore_ok {ps : List BagProp} {n : String} (g : Getter)
    (h : n ∉ ps.map BagProp.name) :
    definePropertyCore ps n g = .ok (ps ++ [⟨n, g⟩]) := by
  induction ps with
  | nil => rfl
  | cons p ps ih =>
    simp only [List.map_cons, List.mem_cons] at h
    push_neg at h
    have hne : ¬ p.name = n := fun he => h.1 he.symm
    simp only [definePropertyCore, if_neg hne, ih h.2, List.cons_append]

/-- The only error Object.defineProperty raises here is the TypeError. -/
lemma definePropertyCore_err {ps : List BagProp} {n : String} {g : Getter} {e : Err}
    (h : definePropertyCore ps n g = .error e) : e = .typeError := by
  induction ps with
  | nil => simp [definePropertyCore] at h
  | cons p ps ih =>
    by_cases hp : p.name = n
    · simp only [definePropertyCore, if_pos hp] at h
      cases pg : p.getter <;> rw [pg] at h <;> simp_all
    · simp only [definePropertyCore, if_neg hp] at h
      cases hd : definePropertyCore ps n g with
      | error e2 =>
        rw [hd] at h
        simp only [Except.error.injEq] at h
        subst h
        exact ih hd
      | ok qs =>
        rw [hd] at h
        simp at h

/-- Running a rule list with pairwise-distinct property names (also distinct
from the properties already defined) never throws. -/
lemma runRules_ok (ow : Option Owner) :
    ∀ (rs : List Rule) (ps : List BagProp),
      (ps.map BagProp.name ++ rs.map Rule.propName).Nodup →
      ∃ qs, runRules ow rs ps = .ok qs := by
  intro rs
  induction rs with
  | nil => intro ps _; exact ⟨ps, rfl⟩
  | cons r rs ih =>
    intro ps h
    have hn : r.propName ∉ ps.map BagProp.name := by
      intro hmem
      rw [List.nodup_append] at h
      exact h.2.2 hmem (by simp)
    have h2 : (((ps ++ [BagProp.mk r.propName (r.getter ow)]).map BagProp.name) ++
        rs.map Rule.propName).Nodup := by
      simpa [List.append_assoc] using h
    obtain ⟨qs, hq⟩ := ih _ h2
    exact ⟨qs, by simp only [runRules, definePropertyCore_ok (r.getter ow) hn, hq]⟩

/-- The only error a rule list can raise is the TypeError. -/
lemma runRules_err (ow : Option Owner) :
    ∀ (rs : List Rule) (ps : List BagProp) (e : Err),
      runRules ow rs ps = .error e → e = .typeError := by
  intro rs
  induction rs with
  | nil => intro ps e h; simp [runRules] at h
  | cons r rs ih =>
    intro ps e h
    simp only [runRules] at h
    cases hd : definePropertyCore ps r.propName (r.getter ow) with
    | error e2 =>
      rw [hd] at h
      simp only [Except.error.injEq] at h
      subst h
      exact definePropertyCore_err hd
    | ok ps1 =>
      rw [hd] at h
      exact ih ps1 e h

/-- A failing build raised the TypeError. -/
lemma buildBag_err {ow : Option Owner} {rules : List Rule} {w : World} {e : Err}
    (h : buildBag ow rules w = .error e) : e = .typeError := by
  simp only [buildBag] at h
  cases hr : runRules ow rules [] with
  | error e2 =>
    rw [hr] at h
    simp only [Except.error.injEq] at h
    subst h
    exact runRules_err ow rules [] e2 hr
  | ok ps =>
    rw [hr] at h
    simp at h

/-- A duplicate-free rule list builds its frozen bag. -/
lemma buildBag_ok {rules : List Rule} (ow : Option Owner) (w : World)
    (hnd : (rules.map Rule.propName).Nodup) :
    ∃ ps, runRules ow rules [] = .ok ps ∧
      buildBag ow rules w = .ok (⟨w.nextId, ps, true⟩, { w with nextId := w.nextId + 1 }) := by
  obtain ⟨ps, hq⟩ := runRules_ok ow rules [] (by simpa using hnd)
  exact ⟨ps, hq, by simp [buildBag, hq]⟩

/-- getInjections always succeeds when the guards pass and the rule list has
pairwise-distinct property names; it leaves the other slots and the
unrelated counters untouched, caches its result, and runs the build closure
at most once. -/
lemma getInjections_ok_g (dev : Bool) (s : Storage) (o : Owner) (w : World)
    (hg1 : (dev && isDestroyingO (some o)) = false)
    (hg2 : (dev && isDestroyedO (some o)) = false)
    (hnd : (s.rules.map Rule.propName).Nodup) :
    ∃ b s1 w1, Storage.getInjections dev s (some o) w = .ok (b, s1, w1) ∧
      alGet s1.injections o.id = some b ∧
      s1.rules = s.rules ∧ s1.finalize = s.finalize ∧ s1.injected = s.injected ∧
      w1.finCount = w.finCount ∧ w1.callCount = w.callCount ∧
      w1.lookupCount = w.lookupCount ∧ w1.cbCount = w.cbCount ∧
      w1.buildCount (some o.id) ≤ w.buildCount (some o.id) + 1 ∧
      (s1.injections = s.injections ∨
        (alGet s.injections o.id = none ∧ s1.injections = (o.id, b) :: s.injections)) := by
  cases hc : alGet s.injections o.id with
  | some b =>
    refine ⟨b, s, w, getInjections_of_cached_g w hg1 hg2 hc, hc, rfl, rfl, rfl,
      rfl, rfl, rfl, rfl, Nat.le_succ_of_le (Nat.le_refl _), Or.inl rfl⟩
  | none =>
    obtain ⟨ps, hr, hb⟩ := buildBag_ok (some o) (bumpBuild w (some o.id)) hnd
    refine ⟨⟨(bumpBuild w (some o.id)).nextId, ps, true⟩,
      { s with injections :=
        (o.id, (⟨(bumpBuild w (some o.id)).nextId, ps, true⟩ : Bag)) :: s.injections },
      { bumpBuild w (some o.id) with nextId := (bumpBuild w (some o.id)).nextId + 1 }, ?_,
      alGet_cons_self _ _ _, rfl, rfl, rfl, rfl, rfl, rfl, rfl, ?_, Or.inr ⟨rfl, rfl⟩⟩
    · simp [Storage.getInjections, hg1, hg2, wmGet, keyId, hc, hb, wmSet]
    · simp [bumpBuild]

/-- getInjections on a live owner: the guard-free version. -/
lemma getInjections_ok (dev : Bool) (s : Storage) (o : Owner) (w : World)
    (h1 : o.destroying = false) (h2 : o.destroyed = false)
    (hnd : (s.rules.map Rule.propName).Nodup) :
    ∃ b s1 w1, Storage.getInjections dev s (some o) w = .ok (b, s1, w1) ∧
      alGet s1.injections o.id = some b ∧
      s1.rules = s.rules ∧ s1.finalize = s.finalize ∧ s1.injected = s.injected ∧
      w1.finCount = w.finCount ∧ w1.callCount = w.callCount ∧
      w1.lookupCount = w.lookupCount ∧ w1.cbCount = w.cbCount ∧
      w1.buildCount (some o.id) ≤ w.buildCount (some o.id) + 1 ∧
      (s1.injections = s.injections ∨
        (alGet s.injections o.id = none ∧ s1.injections = (o.id, b) :: s.injections)) :=
  getInjections_ok_g dev s o w (guards_false dev h1 h2).1 (guards_false dev h1 h2).2 hnd

/-- A cached injected function is returned as is whenever the guards pass. -/
lemma getInjected_of_cached_g {dev : Bool} {s : Storage} {o : Owner} {inj : Injected} (w : World)
    (hg1 : (dev && isDestroyingO (some o)) = false)
    (hg2 : (dev && isDestroyedO (some o)) = false)
    (hc : alGet s.injected o.id = some inj) :
    Storage.getInjected dev s (some o) w = .ok (inj, s, w) := by
  simp [Storage.getInjected, hg1, hg2, wmGet, keyId, hc]

/-- A cached injected function is returned as is for a live owner. -/
lemma getInjected_of_cached {s : Storage} {o : Owner} {inj : Injected} (dev : Bool) (w : World)
    (h1 : o.destroying = false) (h2 : o.destroyed = false)
    (hc : alGet s.injected o.id = some inj) :
    Storage.getInjected dev s (some o) w = .ok (inj, s, w) :=
  getInjected_of_cached_g w (guards_false dev h1 h2).1 (guards_false dev h1 h2).2 hc

/-- getInjected always succeeds when the guards pass and the rule list has
pairwise-distinct property names; it caches its result, never invokes the
injected function, and runs the build closure and the finalize strategy at
most once each. -/
lemma getInjected_ok_g (dev : Bool) (s : Storage) (o : Owner) (w : World)
    (hg1 : (dev && isDestroyingO (some o)) = false)
    (hg2 : (dev && isDestroyedO (some o)) = false)
    (hnd : (s.rules.map Rule.propName).Nodup) :
    ∃ inj s2 w2, Storage.getInjected dev s (some o) w = .ok (inj, s2, w2) ∧
      alGet s2.injected o.id = some inj ∧
      s2.rules = s.rules ∧ s2.finalize = s.finalize ∧
      w2.callCount = w.callCount ∧ w2.lookupCount = w.lookupCount ∧
      w2.cbCount = w.cbCount ∧
      w2.buildCount (some o.id) ≤ w.buildCount (some o.id) + 1 ∧
      w2.finCount (some o.id) ≤ w.finCount (some o.id) + 1 := by
  cases hc : alGet s.injected o.id with
  | some inj =>
    exact ⟨inj, s, w, getInjected_of_cached_g w hg1 hg2 hc, hc, rfl, rfl, rfl, rfl,
      rfl, Nat.le_succ_of_le (Nat.le_refl _), Nat.le_succ_of_le (Nat.le_refl _)⟩
  | none =>
    obtain ⟨b, s1, w1, hgi, hcb, hr, hf, hinj, hfin, hcall, hlook, hcbc, hbc, hext⟩ :=
      getInjections_ok_g dev s o w hg1 hg2 hnd
    refine ⟨(runFinalize s1.finalize b w1).1,
      { s1 with injected := (o.id, (runFinalize s1.finalize b w1).1) :: s1.injected },
      bumpFin (runFinalize s1.finalize b w1).2 (some o.id), ?_,
      alGet_cons_self _ _ _, hr, hf, ?_, ?_, ?_, ?_, ?_⟩
    · simp only [Storage.getInjected, hg1, hg2, Bool.false_eq_true, if_false,
        wmGet, keyId, hc, hgi, wmSet]
    · cases hfz : s1.finalize <;> simp [runFinalize, bumpFin, hfz, hcall]
    · cases hfz : s1.finalize <;> simp [runFinalize, bumpFin, hfz, hlook]
    · cases hfz : s1.finalize <;> simp [runFinalize, bumpFin, hfz, hcbc]
    · cases hfz : s1.finalize <;> simp [runFinalize, bumpFin, hfz, hbc]
    · cases hfz : s1.finalize <;>
        simp [runFinalize, bumpFin, hfz, hfin, Nat.le_refl]

/-- getInjected on a live owner: the guard-free version. -/
lemma getInjected_ok (dev : Bool) (s : Storage) (o : Owner) (w : World)
    (h1 : o.destroying = false) (h2 : o.destroyed = false)
    (hnd : (s.rules.map Rule.propName).Nodup) :
    ∃ inj s2 w2, Storage.getInjected dev s (some o) w = .ok (inj, s2, w2) ∧
      alGet s2.injected o.id = some inj ∧
      s2.rules = s.rules ∧ s2.finalize = s.finalize ∧
      w2.callCount = w.callCount ∧ w2.lookupCount = w.lookupCount ∧
      w2.cbCount = w.cbCount ∧
      w2.buildCount (some o.id) ≤ w.buildCount (some o.id) + 1 ∧
      w2.finCount (some o.id) ≤ w.finCount (some o.id) + 1 :=
  getInjected_ok_g dev s o w (guards_false dev h1 h2).1 (guards_false dev h1 h2).2 hnd

/-- C1 counterexample.  The claim fails as stated: a constructor whose
builder chain reuses a property name (service x twice — reachable through
the builder API) makes the second Object.defineProperty throw, so both cache
accessors throw a TypeError on every call for a live owner and no bag or
injected function is ever returned or cached. -/
theorem idempotent_memoization_cex :
    Storage.getInjections true
      ⟨[.serviceR "x" "a", .serviceR "x" "b"], .intoF 0, "(unknown function)", [], []⟩
      (some ⟨1, false, false⟩) World.init = .error .typeError ∧
    Storage.getInjected true
      ⟨[.serviceR "x" "a", .serviceR "x" "b"], .intoF 0, "(unknown function)", [], []⟩
      (some ⟨1, false, false⟩) World.init = .error .typeError :=
  ⟨rfl, rfl⟩

/-- C1 (amended to builder chains whose rules define pairwise-distinct
property names; with a duplicate name the build throws instead).  Idempotent
memoization: for a live owner, two sequential calls to getInjections return
the identical bag with no further state change, two sequential calls to
getInjected return the identical injected function, and across the pair of
calls the rule-set evaluation and the finalize strategy each run at most
once for this owner. -/
theorem idempotent_memoization (dev : Bool) (s : Storage) (o : Owner) (w : World)
    (h1 : o.destroying = false) (h2 : o.destroyed = false)
    (hnd : (s.rules.map Rule.propName).Nodup) :
    (∃ b s1 w1, Storage.getInjections dev s (some o) w = .ok (b, s1, w1) ∧
      Storage.getInjections dev s1 (some o) w1 = .ok (b, s1, w1) ∧
      w1.buildCount (some o.id) ≤ w.buildCount (some o.id) + 1) ∧
    (∃ inj s2 w2, Storage.getInjected dev s (some o) w = .ok (inj, s2, w2) ∧
      Storage.getInjected dev s2 (some o) w2 = .ok (inj, s2, w2) ∧
      w2.buildCount (some o.id) ≤ w.buildCount (some o.id) + 1 ∧
      w2.finCount (some o.id) ≤ w.finCount (some o.id) + 1) := by
  constructor
  · obtain ⟨b, s1, w1, hgi, hcb, _, _, _, _, _, _, _, hbc, _⟩ :=
      getInjections_ok dev s o w h1 h2 hnd
    exact ⟨b, s1, w1, hgi, getInjections_of_cached dev w1 h1 h2 hcb, hbc⟩
  · obtain ⟨inj, s2, w2, hgj, hcj, _, _, _, _, _, hbc, hfc⟩ :=
      getInjected_ok dev s o w h1 h2 hnd
    exact ⟨inj, s2, w2, hgj, getInjected_of_cached dev w2 h1 h2 hcj, hbc, hfc⟩

/-- C1 witness: a concrete live owner against the empty storage of a
duplicate-free one-rule into-constructor. -/
theorem idempotent_memoization_witness :
    ((⟨3, false, false⟩ : Owner).destroying = false) ∧
    (([Rule.serviceR "config" "config"].map Rule.propName).Nodup) ∧
    ((∃ b s1 w1,
      Storage.getInjections true ⟨[.serviceR "config" "config"], .intoF 0, "(unknown function)", [], []⟩
        (some ⟨3, false, false⟩) World.init = .ok (b, s1, w1) ∧
      Storage.getInjections true s1 (some ⟨3, false, false⟩) w1 = .ok (b, s1, w1) ∧
      w1.buildCount (some 3) ≤ World.init.buildCount (some 3) + 1) ∧
    (∃ inj s2 w2,
      Storage.getInjected true ⟨[.serviceR "config" "config"], .intoF 0, "(unknown function)", [], []⟩
        (some ⟨3, false, false⟩) World.init = .ok (inj, s2, w2) ∧
      Storage.getInjected true s2 (some ⟨3, false, false⟩) w2 = .ok (inj, s2, w2) ∧
      w2.buildCount (some 3) ≤ World.init.buildCount (some 3) + 1 ∧
      w2.finCount (some 3) ≤ World.init.finCount (some 3) + 1)) :=
  ⟨rfl, by decide, idempotent_memoization true
    ⟨[.serviceR "config" "config"], .intoF 0, "(unknown function)", [], []⟩
    ⟨3, false, false⟩ World.init rfl rfl (by decide)⟩

/-- C2.  Destruction guard: in a development build, for an owner that is
being destroyed or already destroyed, getInjections and getInjected always
fail the assertion check, whatever the cache holds — the guard runs before
any cache lookup, so this holds for every storage state. -/
theorem destruction_guard (s : Storage) (o : Owner) (w : World)
    (h : o.destroying = true ∨ o.destroyed = true) :
    (∃ e, Storage.getInjections true s (some o) w = .error e) ∧
    (∃ e, Storage.getInjected true s (some o) w = .error e) := by
  rcases h with h | h
  · exact ⟨⟨.assertDestroying, by simp [Storage.getInjections, isDestroyingO, h]⟩,
      ⟨.assertDestroying, by simp [Storage.getInjected, isDestroyingO, h]⟩⟩
  · cases hd : o.destroying
    · exact ⟨⟨.assertDestroyed,
        by simp [Storage.getInjections, isDestroyingO, isDestroyedO, h, hd]⟩,
        ⟨.assertDestroyed,
        by simp [Storage.getInjected, isDestroyingO, isDestroyedO, h, hd]⟩⟩
    · exact ⟨⟨.assertDestroying, by simp [Storage.getInjections, isDestroyingO, hd]⟩,
        ⟨.assertDestroying, by simp [Storage.getInjected, isDestroyingO, hd]⟩⟩

/-- C2 witness: a destroying owner whose cache entries are already populated
still fails both accessors. -/
theorem destruction_guard_witness :
    ((⟨5, true, false⟩ : Owner).destroying = true ∨
      (⟨5, true, false⟩ : Owner).destroyed = true) ∧
    ((∃ e, Storage.getInjections true
        ⟨[], .intoF 0, "(unknown function)", [(5, ⟨0, [], true⟩)],
          [(5, ⟨1, .bound 0 ⟨0, [], true⟩⟩)]⟩
        (some ⟨5, true, false⟩) World.init = .error e) ∧
    (∃ e, Storage.getInjected true
        ⟨[], .intoF 0, "(unknown function)", [(5, ⟨0, [], true⟩)],
          [(5, ⟨1, .bound 0 ⟨0, [], true⟩⟩)]⟩
        (some ⟨5, true, false⟩) World.init = .error e)) :=
  ⟨Or.inl rfl, destruction_guard
    ⟨[], .intoF 0, "(unknown function)", [(5, ⟨0, [], true⟩)],
      [(5, ⟨1, .bound 0 ⟨0, [], true⟩⟩)]⟩
    ⟨5, true, false⟩ World.init (Or.inl rfl)⟩

/-- The injected function produced by the finalize strategy closes over
exactly the bag the strategy was applied to. -/
lemma runFinalize_bagOf (fin : Finalize) (b : Bag) (w : World) :
    ((runFinalize fin b w).1).sem.bagOf = b := by
  cases fin <;> rfl

/-- Inversion of a successful getInjections: the returned bag is cached
under the owner, the other slots are untouched, and the injections map
either was untouched (cache hit) or gained exactly this one entry. -/
lemma getInjections_inv {dev : Bool} {s : Storage} {o : Owner} {w : World}
    {b : Bag} {s1 : Storage} {w1 : World}
    (h : Storage.getInjections dev s (some o) w = .ok (b, s1, w1)) :
    alGet s1.injections o.id = some b ∧ s1.rules = s.rules ∧
    s1.finalize = s.finalize ∧ s1.injected = s.injected ∧
    (s1.injections = s.injections ∨
      (alGet s.injections o.id = none ∧ s1.injections = (o.id, b) :: s.injections)) := by
  cases hg1 : (dev && isDestroyingO (some o)) with
  | true => simp [Storage.getInjections, hg1] at h
  | false =>
    cases hg2 : (dev && isDestroyedO (some o)) with
    | true => simp [Storage.getInjections, hg1, hg2] at h
    | false =>
      simp only [Storage.getInjections, hg1, hg2, Bool.false_eq_true, if_false,
        wmGet, keyId] at h
      cases hc : alGet s.injections o.id with
      | some b0 =>
        rw [hc] at h
        simp only [Except.ok.injEq, Prod.mk.injEq] at h
        obtain ⟨hb, hs, hw⟩ := h
        subst hb
        subst hs
        exact ⟨hc, rfl, rfl, rfl, Or.inl rfl⟩
      | none =>
        rw [hc] at h
        cases hbb : buildBag (some o) s.rules (bumpBuild w (some o.id)) with
        | error e =>
          rw [hbb] at h
          simp at h
        | ok bw =>
          rw [hbb] at h
          simp only [wmSet, Except.ok.injEq, Prod.mk.injEq] at h
          obtain ⟨hb, hs, hw⟩ := h
          subst hb
          subst hs
          exact ⟨alGet_cons_self _ _ _, rfl, rfl, rfl, Or.inr ⟨rfl, rfl⟩⟩

/-- C9.  Cache coherence: from a coherent storage (the empty storage is
coherent and every operation preserves coherence, so this covers all
program-reachable storages), whenever getInjected succeeds the bag its
injected function was derived from is cached in the injections map, a
subsequent getInjections returns exactly that bag unchanged, and coherence
is preserved. -/
theorem cache_coherence (dev : Bool) (s : Storage) (o : Owner) (w : World)
    (inj : Injected) (s2 : Storage) (w2 : World) (hco : Coherent s)
    (hsucc : Storage.getInjected dev s (some o) w = .ok (inj, s2, w2)) :
    alGet s2.injections o.id = some inj.sem.bagOf ∧
    Storage.getInjections dev s2 (some o) w2 = .ok (inj.sem.bagOf, s2, w2) ∧
    Coherent s2 := by
  cases hg1 : (dev && isDestroyingO (some o)) with
  | true => simp [Storage.getInjected, hg1] at hsucc
  | false =>
    cases hg2 : (dev && isDestroyedO (some o)) with
    | true => simp [Storage.getInjected, hg1, hg2] at hsucc
    | false =>
      simp only [Storage.getInjected, hg1, hg2, Bool.false_eq_true, if_false,
        wmGet, keyId] at hsucc
      cases hc : alGet s.injected o.id with
      | some inj0 =>
        rw [hc] at hsucc
        simp only [Except.ok.injEq, Prod.mk.injEq] at hsucc
        obtain ⟨hi, hs, hw⟩ := hsucc
        rw [hi] at hc
        subst hs
        subst hw
        have hbag := hco o.id inj hc
        exact ⟨hbag, getInjections_of_cached_g w hg1 hg2 hbag, hco⟩
      | none =>
        rw [hc] at hsucc
        cases hgi : Storage.getInjections dev s (some o) w with
        | error e =>
          rw [hgi] at hsucc
          simp at hsucc
        | ok t =>
          obtain ⟨b, s1, w1⟩ := t
          rw [hgi] at hsucc
          simp only [wmSet, Except.ok.injEq, Prod.mk.injEq] at hsucc
          obtain ⟨hi, hs, hw⟩ := hsucc
          obtain ⟨hcb, hr, hf, hinj, hext⟩ := getInjections_inv hgi
          subst hi
          subst hs
          subst hw
          refine ⟨?_, ?_, ?_⟩
          · rw [runFinalize_bagOf]
            exact hcb
          · rw [runFinalize_bagOf]
            exact getInjections_of_cached_g _ hg1 hg2 hcb
          · intro k inj' hk
            by_cases hko : k = o.id
            · subst hko
              rw [alGet_cons_self] at hk
              cases hk
              rw [runFinalize_bagOf]
              exact hcb
            · rw [alGet_cons_ne _ _ (fun he => hko he.symm)] at hk
              rw [hinj] at hk
              have hold := hco k inj' hk
              rcases hext with hsame | ⟨hnone, hcons⟩
              · simpa [hsame] using hold
              · have hkne : k ≠ o.id := hko
                rw [hcons, alGet_cons_ne _ _ (fun he => hkne he.symm)]
                exact hold

/-- C9 witness: the empty storage of a duplicate-free into-constructor is
coherent, a live owner makes getInjected succeed, and the theorem applies at
that success. -/
theorem cache_coherence_witness :
    ∃ inj s2 w2, Storage.getInjected true
        ⟨[.ownerR], .intoF 4, "(unknown function)", [], []⟩
        (some ⟨2, false, false⟩) World.init = .ok (inj, s2, w2) ∧
      alGet s2.injections 2 = some inj.sem.bagOf ∧
      Storage.getInjections true s2 (some ⟨2, false, false⟩) w2 =
        .ok (inj.sem.bagOf, s2, w2) ∧
      Coherent s2 := by
  obtain ⟨inj, s2, w2, hsucc, _⟩ :=
    getInjected_ok true ⟨[.ownerR], .intoF 4, "(unknown function)", [], []⟩
      ⟨2, false, false⟩ World.init rfl rfl (by decide)
  obtain ⟨h1, h2, h3⟩ :=
    cache_coherence true ⟨[.ownerR], .intoF 4, "(unknown function)", [], []⟩
      ⟨2, false, false⟩ World.init inj s2 w2 (fun k inj h => by simp [alGet] at h) hsucc
  exact ⟨inj, s2, w2, hsucc, h1, h2, h3⟩

/-- C3 counterexample.  The claim fails as stated: for a constructor whose
builder chain reuses a property name (reachable through the builder API),
new C(owner) with a live owner throws the defineProperty TypeError instead
of returning the injected function. -/
theorem dual_invocation_cex :
    constructNew true
      ⟨[.serviceR "x" "a", .serviceR "x" "b"], .intoF 0, "(unknown function)", [], []⟩
      (some ⟨1, false, false⟩) World.init = .error .typeError :=
  rfl

/-- C3 (amended to builder chains whose rules define pairwise-distinct
property names).  Dual invocation modes: for a live owner, new C(owner)
returns the injected function g for that owner without invoking it (no
invocation counter moves), and a subsequent plain call of C with a receiver
from which the owner-resolution function resolves the same owner produces
exactly the result of invoking g with the same arguments. -/
theorem dual_invocation (dev : Bool) (env : Env) (s : Storage) (o : Owner) (w : World)
    (nm : String) (ctxId : Nat) (args : List Value)
    (h1 : o.destroying = false) (h2 : o.destroyed = false)
    (hnd : (s.rules.map Rule.propName).Nodup)
    (hctx : env.getOwner ctxId = some o) :
    ∃ g s1 w1, constructNew dev s (some o) w = .ok (g, s1, w1) ∧
      w1.callCount = w.callCount ∧
      directCall dev env s1 nm (.obj ctxId) args w1 =
        .ok ((applyInjected env g args w1).1, s1, (applyInjected env g args w1).2) := by
  obtain ⟨g, s1, w1, hgj, hcj, _, _, hcall, _, _, _, _⟩ :=
    getInjected_ok dev s o w h1 h2 hnd
  have hcached : Storage.getInjected dev s1 (some o) w1 = .ok (g, s1, w1) :=
    getInjected_of_cached dev w1 h1 h2 hcj
  refine ⟨g, s1, w1, hgj, hcall, ?_⟩
  cases hb : (dev && (nm != "")) <;>
    simp [directCall, hb, hctx, hcached]

/-- The concrete external environment used by the witnesses: context object
7 resolves to the live owner with id 2; everything else resolves to
nothing. -/
def envW : Env :=
  ⟨fun _ _ => .num 10, fun _ _ _ => .num 5, fun _ _ _ => .num 1, fun _ _ _ => .num 2,
    fun i => if i = 7 then some ⟨2, false, false⟩ else none⟩

/-- C3 witness: a concrete duplicate-free into-constructor storage, owner 2
behind context object 7, and one positional argument. -/
theorem dual_invocation_witness :
    ((⟨2, false, false⟩ : Owner).destroying = false) ∧
    (([Rule.serviceR "config" "config"].map Rule.propName).Nodup) ∧
    (∃ g s1 w1, constructNew true
        ⟨[.serviceR "config" "config"], .intoF 0, "(unknown function)", [], []⟩
        (some ⟨2, false, false⟩) World.init = .ok (g, s1, w1) ∧
      w1.callCount = World.init.callCount ∧
      directCall true envW s1 "f" (.obj 7) [.num 3] w1 =
        .ok ((applyInjected envW g [.num 3] w1).1, s1,
          (applyInjected envW g [.num 3] w1).2)) :=
  ⟨rfl, by decide, dual_invocation true envW
    ⟨[.serviceR "config" "config"], .intoF 0, "(unknown function)", [], []⟩
    ⟨2, false, false⟩ World.init "f" 7 [.num 3] rfl rfl (by decide) (by simp [envW])⟩

/-- With an undefined owner key the asserts are inert and the weak maps read
as empty; either the build itself throws its TypeError, or the attempt to
cache the freshly built bag throws the WeakMap TypeError. -/
lemma getInjected_none_key (dev : Bool) (s : Storage) (w : World) :
    Storage.getInjected dev s none w = .error .typeError := by
  cases hb : buildBag none s.rules (bumpBuild w none) with
  | error e =>
    have he := buildBag_err hb
    subst he
    simp [Storage.getInjected, Storage.getInjections, isDestroyingO, isDestroyedO,
      wmGet, keyId, hb, wmSet]
  | ok bw =>
    simp [Storage.getInjected, Storage.getInjections, isDestroyingO, isDestroyedO,
      wmGet, keyId, hb, wmSet]

/-- C5 counterexample.  The claim fails as stated: a development build of an
anonymous constructor (into/build with an inline anonymous function, whose
name is the empty string) takes the assert-free makeConstructor path, so a
plain call on a non-object receiver aborts with the TypeError instead of
failing an assertion. -/
theorem direct_call_preconditions_cex :
    directCall true envW ⟨[.ownerR], .intoF 0, "(unknown function)", [], []⟩
      "" .nonObject [.num 1] World.init = .error .typeError ∧
    (Err.typeError ≠ Err.assertNoContext ∧ Err.typeError ≠ Err.assertInvalidContext) :=
  ⟨rfl, by decide, by decide⟩

/-- C5 (amended: the development-build assertions are installed only for
constructors finalized from a named function; an anonymous constructor in a
development build behaves like a production build and aborts via the thrown
TypeError; the successful path is stated for duplicate-free rule lists).
Direct-call precondition.  In a development build of a named constructor, a
plain call fails the context-object assertion when the receiver is not an
object and the invalid-context assertion when no owner resolves from it; on
success it obtains the injected function for the resolved owner and
immediately invokes it with all supplied arguments, returning its result.
In a production build — and for a dev-build anonymous constructor — the
asserts are stripped, but an unmet precondition still aborts: the unresolved
owner flows into the weak-map store, which throws. -/
theorem direct_call_preconditions (env : Env) (s : Storage) (w : World) (nm : String)
    (args : List Value) (badId goodId : Nat) (o : Owner)
    (hnm : nm ≠ "")
    (hnd : (s.rules.map Rule.propName).Nodup)
    (hbad : env.getOwner badId = none)
    (hgood : env.getOwner goodId = some o)
    (h1 : o.destroying = false) (h2 : o.destroyed = false) :
    directCall true env s nm .nonObject args w = .error .assertNoContext ∧
    directCall true env s nm (.obj badId) args w = .error .assertInvalidContext ∧
    (∃ inj s1 w1, Storage.getInjected true s (some o) w = .ok (inj, s1, w1) ∧
      directCall true env s nm (.obj goodId) args w =
        .ok ((applyInjected env inj args w1).1, s1, (applyInjected env inj args w1).2)) ∧
    directCall false env s nm .nonObject args w = .error .typeError ∧
    directCall false env s nm (.obj badId) args w = .error .typeError ∧
    directCall true env s "" .nonObject args w = .error .typeError ∧
    directCall true env s "" (.obj badId) args w = .error .typeError := by
  obtain ⟨inj, s1, w1, hgj, _, _, _, _, _, _, _, _⟩ :=
    getInjected_ok true s o w h1 h2 hnd
  refine ⟨?_, ?_, ⟨inj, s1, w1, hgj, ?_⟩, ?_, ?_, ?_, ?_⟩
  · simp [directCall, bne_iff_ne, hnm]
  · simp [directCall, bne_iff_ne, hnm, hbad]
  · simp [directCall, bne_iff_ne, hnm, hgood, hgj]
  · simp [directCall, getInjected_none_key]
  · simp [directCall, hbad, getInjected_none_key]
  · simp [directCall, getInjected_none_key]
  · simp [directCall, hbad, getInjected_none_key]

/-- C5 witness: the named dev-mode asserts, the successful call through
context object 7, the production-mode aborts, and the anonymous dev-mode
aborts, on concrete inputs. -/
theorem direct_call_preconditions_witness :
    ("myHelper" ≠ "") ∧ (([Rule.ownerR].map Rule.propName).Nodup) ∧
    (envW.getOwner 3 = none) ∧
    (envW.getOwner 7 = some ⟨2, false, false⟩) ∧
    (directCall true envW ⟨[.ownerR], .intoF 0, "(unknown function)", [], []⟩
        "myHelper" .nonObject [.num 1] World.init = .error .assertNoContext ∧
    directCall true envW ⟨[.ownerR], .intoF 0, "(unknown function)", [], []⟩
        "myHelper" (.obj 3) [.num 1] World.init = .error .assertInvalidContext ∧
    (∃ inj s1 w1, Storage.getInjected true
        ⟨[.ownerR], .intoF 0, "(unknown function)", [], []⟩
        (some ⟨2, false, false⟩) World.init = .ok (inj, s1, w1) ∧
      directCall true envW ⟨[.ownerR], .intoF 0, "(unknown function)", [], []⟩
        "myHelper" (.obj 7) [.num 1] World.init =
        .ok ((applyInjected envW inj [.num 1] w1).1, s1,
          (applyInjected envW inj [.num 1] w1).2)) ∧
    directCall false envW ⟨[.ownerR], .intoF 0, "(unknown function)", [], []⟩
        "myHelper" .nonObject [.num 1] World.init = .error .typeError ∧
    directCall false envW ⟨[.ownerR], .intoF 0, "(unknown function)", [], []⟩
        "myHelper" (.obj 3) [.num 1] World.init = .error .typeError ∧
    directCall true envW ⟨[.ownerR], .intoF 0, "(unknown function)", [], []⟩
        "" .nonObject [.num 1] World.init = .error .typeError ∧
    directCall true envW ⟨[.ownerR], .intoF 0, "(unknown function)", [], []⟩
        "" (.obj 3) [.num 1] World.init = .error .typeError) :=
  ⟨by decide, by decide, by simp [envW], by simp [envW],
    direct_call_preconditions envW ⟨[.ownerR], .intoF 0, "(unknown function)", [], []⟩
      World.init "myHelper" [.num 1] 3 7 ⟨2, false, false⟩
      (by decide) (by decide) (by simp [envW]) (by simp [envW]) rfl rfl⟩

/-- Every getter a rule installs starts in the UNINITIALIZED state. -/
lemma rule_getter_cacheOf (r : Rule) (ow : Option Owner) :
    (Rule.getter r ow).cacheOf = none := by
  cases r <;> rfl

/-- A successful defineProperty preserves a property of all getters when the
new getter has it. -/
lemma definePropertyCore_forall {P : Getter → Prop} (n : String) (g : Getter) (hg : P g) :
    ∀ ps qs : List BagProp, definePropertyCore ps n g = .ok qs →
      (∀ p ∈ ps, P p.getter) → ∀ p ∈ qs, P p.getter := by
  intro ps
  induction ps with
  | nil =>
    intro qs hq hps p hp
    simp only [definePropertyCore, Except.ok.injEq] at hq
    subst hq
    simp only [List.mem_singleton] at hp
    subst hp
    exact hg
  | cons q ps ih =>
    intro qs hq hps p hp
    by_cases hn : q.name = n
    · simp only [definePropertyCore, if_pos hn] at hq
      cases qg : q.getter with
      | dataG v =>
        rw [qg] at hq
        simp only [Except.ok.injEq] at hq
        subst hq
        rcases List.mem_cons.mp hp with hp | hp
        · subst hp; exact hg
        · exact hps p (List.mem_cons_of_mem _ hp)
      | ownerG ow2 =>
        rw [qg] at hq
        simp at hq
      | serviceG ow2 sn2 c2 =>
        rw [qg] at hq
        simp at hq
      | computeG ow2 cb2 c2 =>
        rw [qg] at hq
        simp at hq
    · simp only [definePropertyCore, if_neg hn] at hq
      cases hd : definePropertyCore ps n g with
      | error e =>
        rw [hd] at hq
        simp at hq
      | ok qs1 =>
        rw [hd] at hq
        simp only [Except.ok.injEq] at hq
        subst hq
        rcases List.mem_cons.mp hp with hp | hp
        · subst hp; exact hps p (List.mem_cons_self _ _)
        · exact ih qs1 hd (fun r hr => hps r (List.mem_cons_of_mem _ hr)) p hp

/-- After a successful run of any rule list, every getter on the bag under
construction is still uninitialized: defining the bag evaluates no rule. -/
lemma runRules_cacheOf (ow : Option Owner) :
    ∀ (rs : List Rule) (ps qs : List BagProp), runRules ow rs ps = .ok qs →
      (∀ p ∈ ps, p.getter.cacheOf = none) → ∀ p ∈ qs, p.getter.cacheOf = none := by
  intro rs
  induction rs with
  | nil =>
    intro ps qs hq hps
    simp only [runRules, Except.ok.injEq] at hq
    subst hq
    exact hps
  | cons r rs ih =>
    intro ps qs hq hps
    simp only [runRules] at hq
    cases hd : definePropertyCore ps r.propName (r.getter ow) with
    | error e =>
      rw [hd] at hq
      simp at hq
    | ok ps1 =>
      rw [hd] at hq
      exact ih ps1 qs hq
        (definePropertyCore_forall (P := fun g => g.cacheOf = none)
          r.propName (r.getter ow) (rule_getter_cacheOf r ow) ps ps1 hd hps)

/-- A found getter is the getter of some listed property. -/
lemma findProp_mem {ps : List BagProp} {n : String} {g : Getter}
    (h : findProp ps n = some g) : ∃ p, p ∈ ps ∧ p.getter = g := by
  induction ps with
  | nil => simp [findProp] at h
  | cons q ps ih =>
    by_cases hq : q.name = n
    · simp only [findProp, if_pos hq, Option.some.injEq] at h
      exact ⟨q, List.mem_cons_self _ _, h⟩
    · simp only [findProp, if_neg hq] at h
      obtain ⟨p, hp, hg⟩ := ih h
      exact ⟨p, List.mem_cons_of_mem _ hp, hg⟩

/-- Writing a found property's closure slot makes the written getter the one
found under that name. -/
lemma findProp_setGetter {ps : List BagProp} {n : String} {g0 : Getter} (g : Getter)
    (h : findProp ps n = some g0) : findProp (setGetter ps n g) n = some g := by
  induction ps with
  | nil => simp [findProp] at h
  | cons q ps ih =>
    by_cases hq : q.name = n
    · simp [setGetter, hq, findProp]
    · simp only [setGetter, if_neg hq]
      simp only [findProp, if_neg hq]
      simp only [findProp, if_neg hq] at h
      exact ih h

/-- C4.  Laziness: building the injections bag runs the rule closures only
to define properties — no service lookup and no property callback fires, and
every getter is still uninitialized.  For any bag holding an uninitialized
service getter, the first read performs the lookup exactly once, caches it,
and a second read returns the identical result with no further effect; the
same holds for a computed-property getter and its callback. -/
theorem laziness (env : Env) (rules : List Rule) (ow owc : Option Owner) (w : World)
    (b : Bag) (n sn : String) (o : Owner) (cb : Nat) :
    (∀ bb w1, buildBag ow rules w = .ok (bb, w1) →
      w1.lookupCount = w.lookupCount ∧ w1.cbCount = w.cbCount ∧
      (∀ m g, findProp bb.props m = some g → g.cacheOf = none)) ∧
    (findProp b.props n = some (.serviceG (some o) sn none) →
      ∃ v b1 w1, readProp env b n w = .ok (v, b1, w1) ∧
        v = env.lookup o.id ("service:" ++ sn) ∧
        w1.lookupCount o.id ("service:" ++ sn) =
          w.lookupCount o.id ("service:" ++ sn) + 1 ∧
        readProp env b1 n w1 = .ok (v, b1, w1)) ∧
    (findProp b.props n = some (.computeG owc cb none) →
      ∃ v b1 w1, readProp env b n w = .ok (v, b1, w1) ∧
        v = env.callback cb b owc ∧
        w1.cbCount cb = w.cbCount cb + 1 ∧
        readProp env b1 n w1 = .ok (v, b1, w1)) := by
  refine ⟨?_, ?_, ?_⟩
  · intro bb w1 hb
    simp only [buildBag] at hb
    cases hr : runRules ow rules [] with
    | error e =>
      rw [hr] at hb
      simp at hb
    | ok ps =>
      rw [hr] at hb
      simp only [Except.ok.injEq, Prod.mk.injEq] at hb
      obtain ⟨hb1, hb2⟩ := hb
      subst hb1
      subst hb2
      refine ⟨rfl, rfl, ?_⟩
      intro m g hm
      obtain ⟨p, hp, hg⟩ := findProp_mem hm
      have := runRules_cacheOf ow rules [] ps hr (by simp) p hp
      rw [hg] at this
      exact this
  · intro h
    refine ⟨env.lookup o.id ("service:" ++ sn), { b with props := setGetter b.props n (.serviceG (some o) sn (some (env.lookup o.id ("service:" ++ sn)))) }, bumpLookup w o.id ("service:" ++ sn), ?_, rfl, ?_, ?_⟩
    · simp [readProp, h]
    · simp [bumpLookup]
    · simp [readProp, findProp_setGetter _ h]
  · intro h
    refine ⟨env.callback cb b owc, { b with props := setGetter b.props n (.computeG owc cb (some (env.callback cb b owc))) }, bumpCb w cb, ?_, rfl, ?_, ?_⟩
    · simp [readProp, h]
    · simp [bumpCb]
    · simp [readProp, findProp_setGetter _ h]

/-- C4 witness: a bag built from one service rule and one computed-property
rule for owner 2 — the build succeeds without firing anything, the first
read of the service property performs exactly one lookup, and the second
read is a cache hit. -/
theorem laziness_witness :
    (buildBag (some ⟨2, false, false⟩) [.serviceR "config" "config", .propertyR "x" 9]
        World.init =
      .ok (⟨0, [⟨"config", .serviceG (some ⟨2, false, false⟩) "config" none⟩,
        ⟨"x", .computeG (some ⟨2, false, false⟩) 9 none⟩], true⟩,
        { World.init with nextId := 1 })) ∧
    (({ World.init with nextId := 1 } : World).lookupCount = World.init.lookupCount) ∧
    (∃ v b1 w1, readProp envW
        ⟨0, [⟨"config", .serviceG (some ⟨2, false, false⟩) "config" none⟩,
          ⟨"x", .computeG (some ⟨2, false, false⟩) 9 none⟩], true⟩ "config"
        { World.init with nextId := 1 } = .ok (v, b1, w1) ∧
      v = envW.lookup 2 ("service:" ++ "config") ∧
      w1.lookupCount 2 ("service:" ++ "config") =
        ({ World.init with nextId := 1 } : World).lookupCount 2 ("service:" ++ "config") + 1 ∧
      readProp envW b1 "config" w1 = .ok (v, b1, w1)) :=
  ⟨rfl,
    ((laziness envW [.serviceR "config" "config", .propertyR "x" 9]
      (some ⟨2, false, false⟩) none World.init
      ⟨0, [⟨"config", .serviceG (some ⟨2, false, false⟩) "config" none⟩,
        ⟨"x", .computeG (some ⟨2, false, false⟩) 9 none⟩], true⟩
      "config" "config" ⟨2, false, false⟩ 9).1
      ⟨0, [⟨"config", .serviceG (some ⟨2, false, false⟩) "config" none⟩,
        ⟨"x", .computeG (some ⟨2, false, false⟩) 9 none⟩], true⟩
      { World.init with nextId := 1 } rfl).1,
    (laziness envW [.serviceR "config" "config", .propertyR "x" 9]
      (some ⟨2, false, false⟩) none { World.init with nextId := 1 }
      ⟨0, [⟨"config", .serviceG (some ⟨2, false, false⟩) "config" none⟩,
        ⟨"x", .computeG (some ⟨2, false, false⟩) 9 none⟩], true⟩
      "config" "config" ⟨2, false, false⟩ 9).2.1 rfl⟩

/-- C6.  Named-argument elision: getValue invokes the recorded function with
exactly the positional arguments when the named mapping has no keys, and
with the named mapping appended as one trailing argument when it has at
least one key; the function's result is returned unchanged. -/
theorem named_argument_elision (env : Env) (st : HelperState) (w : World) :
    (st.args.named = [] →
      getValue env st w = applyInjected env st.fn st.args.positional w) ∧
    (st.args.named ≠ [] →
      getValue env st w =
        applyInjected env st.fn (st.args.positional ++ [.dict st.args.named]) w) := by
  constructor
  · intro h
    simp [getValue, h]
  · intro h
    have hl : st.args.named.length > 0 := List.length_pos.mpr h
    simp [getValue, hl]

/-- C6 witness: two concrete helper states, one with an empty named mapping
and one with a single named key. -/
theorem named_argument_elision_witness :
    (([] : List (String × Value)) = [] ∧
      getValue envW ⟨⟨0, .bound 0 ⟨0, [], true⟩⟩, ⟨[.num 1, .num 2], []⟩⟩ World.init =
        applyInjected envW ⟨0, .bound 0 ⟨0, [], true⟩⟩ [.num 1, .num 2] World.init) ∧
    ([("opt", Value.num 1)] ≠ [] ∧
      getValue envW ⟨⟨0, .bound 0 ⟨0, [], true⟩⟩, ⟨[.num 1, .num 2], [("opt", .num 1)]⟩⟩
          World.init =
        applyInjected envW ⟨0, .bound 0 ⟨0, [], true⟩⟩
          ([.num 1, .num 2] ++ [.dict [("opt", .num 1)]]) World.init) :=
  ⟨⟨rfl, (named_argument_elision envW
      ⟨⟨0, .bound 0 ⟨0, [], true⟩⟩, ⟨[.num 1, .num 2], []⟩⟩ World.init).1 rfl⟩,
    ⟨by simp, (named_argument_elision envW
      ⟨⟨0, .bound 0 ⟨0, [], true⟩⟩, ⟨[.num 1, .num 2], [("opt", .num 1)]⟩⟩ World.init).2
      (by simp)⟩⟩

/-- C7.  Builder non-mutation: each of owner, service and property returns a
brand-new builder wrapping the old rule sequence plus exactly one appended
rule, with the original builder's rule list appearing unchanged; two
constructors finalized from independent chains off the same base builder
carry exactly the rules of their own chain. -/
theorem builder_non_mutation (b : Builder) (p sv n : String) (cb fn1 fn2 : Nat)
    (nm1 nm2 : String) (dev : Bool) :
    (Builder.owner b).properties = b.properties ++ [.ownerR] ∧
    (Builder.service b p sv).properties = b.properties ++ [.serviceR p sv] ∧
    (Builder.property b n cb).properties = b.properties ++ [.propertyR n cb] ∧
    Builder.into (Builder.service b p sv) fn1 nm1 dev =
      .ok (⟨true, nm1⟩,
        ⟨b.properties ++ [.serviceR p sv], .intoF fn1, "(unknown function)", [], []⟩) ∧
    Builder.into (Builder.property b n cb) fn2 nm2 dev =
      .ok (⟨true, nm2⟩,
        ⟨b.properties ++ [.propertyR n cb], .intoF fn2, "(unknown function)", [], []⟩) := by
  refine ⟨rfl, rfl, rfl, ?_, ?_⟩ <;>
    simp [Builder.into, Builder.service, Builder.property, constructorFor,
      helperFor, isInjectable]

/-- C8.  Immutability of the bag: every bag the getInjections closure
returns is frozen; redefining or adding a property on it throws a TypeError,
ordinary assignment throws in strict mode and is a silent no-op otherwise,
and in every case the bag (with all its lazily-defined getters) is
unchanged. -/
theorem bag_immutability (ow : Option Owner) (rules : List Rule) (w : World)
    (n : String) (g : Getter) (v : Value) :
    ∀ b w1, buildBag ow rules w = .ok (b, w1) →
      b.frozen = true ∧
      defineProperty b n g = .error .typeError ∧
      assign true b n v = .error .typeError ∧
      assign false b n v = .ok b := by
  intro b w1 hb
  simp only [buildBag] at hb
  cases hr : runRules ow rules [] with
  | error e =>
    rw [hr] at hb
    simp at hb
  | ok ps =>
    rw [hr] at hb
    simp only [Except.ok.injEq, Prod.mk.injEq] at hb
    obtain ⟨hb1, hb2⟩ := hb
    subst hb1
    subst hb2
    refine ⟨rfl, by simp [defineProperty], ?_, ?_⟩ <;>
      · simp only [assign]
        split <;> rfl

/-- C8 witness: a concrete successful build, with a redefinition attempt and
an assignment attempt on the getter property, both rejected. -/
theorem bag_immutability_witness :
    (buildBag (some ⟨2, false, false⟩) [.ownerR] World.init =
      .ok (⟨0, [⟨"owner", .ownerG (some ⟨2, false, false⟩)⟩], true⟩,
        { World.init with nextId := 1 })) ∧
    ((⟨0, [⟨"owner", .ownerG (some ⟨2, false, false⟩)⟩], true⟩ : Bag).frozen = true ∧
      defineProperty ⟨0, [⟨"owner", .ownerG (some ⟨2, false, false⟩)⟩], true⟩ "owner"
        (.dataG (.num 7)) = .error .typeError ∧
      assign true ⟨0, [⟨"owner", .ownerG (some ⟨2, false, false⟩)⟩], true⟩ "owner"
        (.num 7) = .error .typeError ∧
      assign false ⟨0, [⟨"owner", .ownerG (some ⟨2, false, false⟩)⟩], true⟩ "owner"
        (.num 7) = .ok ⟨0, [⟨"owner", .ownerG (some ⟨2, false, false⟩)⟩], true⟩) :=
  ⟨rfl, bag_immutability (some ⟨2, false, false⟩) [.ownerR] World.init "owner"
      (.dataG (.num 7)) (.num 7)
      ⟨0, [⟨"owner", .ownerG (some ⟨2, false, false⟩)⟩], true⟩
      { World.init with nextId := 1 } rfl⟩

/-- Every error getInjections can raise with a real (object) owner key is a
destruction assert or the build TypeError. -/
lemma getInjections_err_classify {dev : Bool} {s : Storage} {o : Owner} {w : World}
    {e : Err} (h : Storage.getInjections dev s (some o) w = .error e) :
    e = .assertDestroying ∨ e = .assertDestroyed ∨ e = .typeError := by
  cases hg1 : (dev && isDestroyingO (some o)) with
  | true =>
    simp only [Storage.getInjections, hg1, if_true, Except.error.injEq] at h
    exact Or.inl h.symm
  | false =>
    cases hg2 : (dev && isDestroyedO (some o)) with
    | true =>
      simp only [Storage.getInjections, hg1, hg2, Bool.false_eq_true, if_false,
        if_true, Except.error.injEq] at h
      exact Or.inr (Or.inl h.symm)
    | false =>
      simp only [Storage.getInjections, hg1, hg2, Bool.false_eq_true, if_false,
        wmGet, keyId] at h
      cases hc : alGet s.injections o.id with
      | some b =>
        rw [hc] at h
        simp at h
      | none =>
        rw [hc] at h
        cases hbb : buildBag (some o) s.rules (bumpBuild w (some o.id)) with
        | error e2 =>
          rw [hbb] at h
          simp only [Except.error.injEq] at h
          subst h
          exact Or.inr (Or.inr (buildBag_err hbb))
        | ok bw =>
          rw [hbb] at h
          simp [wmSet] at h

/-- Every error getInjected can raise with a real (object) owner key is a
destruction assert or the build TypeError — never the injectable assert. -/
lemma getInjected_err_classify {dev : Bool} {s : Storage} {o : Owner} {w : World}
    {e : Err} (h : Storage.getInjected dev s (some o) w = .error e) :
    e = .assertDestroying ∨ e = .assertDestroyed ∨ e = .typeError := by
  cases hg1 : (dev && isDestroyingO (some o)) with
  | true =>
    simp only [Storage.getInjected, hg1, if_true, Except.error.injEq] at h
    exact Or.inl h.symm
  | false =>
    cases hg2 : (dev && isDestroyedO (some o)) with
    | true =>
      simp only [Storage.getInjected, hg1, hg2, Bool.false_eq_true, if_false,
        if_true, Except.error.injEq] at h
      exact Or.inr (Or.inl h.symm)
    | false =>
      simp only [Storage.getInjected, hg1, hg2, Bool.false_eq_true, if_false,
        wmGet, keyId] at h
      cases hc : alGet s.injected o.id with
      | some inj =>
        rw [hc] at h
        simp at h
      | none =>
        rw [hc] at h
        cases hgi : Storage.getInjections dev s (some o) w with
        | error e2 =>
          rw [hgi] at h
          simp only [Except.error.injEq] at h
          subst h
          exact getInjections_err_classify hgi
        | ok t =>
          obtain ⟨b, s1, w1⟩ := t
          rw [hgi] at h
          simp [wmSet] at h

/-- A getInjected call with a real (object) owner never fails the injectable
assert. -/
lemma getInjected_not_injectable_err (dev : Bool) (s : Storage) (o : Owner) (w : World) :
    Storage.getInjected dev s (some o) w ≠ .error .assertNotInjectable := by
  intro hcon
  rcases getInjected_err_classify hcon with h | h | h <;> exact absurd h (by decide)

/-- C10.  Injectable tagging: every constructor finalized through into or
build comes out of constructorFor already carrying the INJECTABLE marker, so
isInjectable holds, helperFor's registration assert passes (returning the
constructor unchanged), and createHelper can never fail its must-be-an-
injectable-constructor assert on such a constructor. -/
theorem injectable_tagging (b : Builder) (fnId cbId : Nat) (nm1 nm2 : String) (dev : Bool) :
    Builder.into b fnId nm1 dev =
      .ok (⟨true, nm1⟩, ⟨b.properties, .intoF fnId, "(unknown function)", [], []⟩) ∧
    isInjectable ⟨true, nm1⟩ = true ∧
    helperFor dev ⟨true, nm1⟩ = .ok ⟨true, nm1⟩ ∧
    (∀ (mo : Owner) (st : Storage) (args : Args) (w : World),
      createHelper dev mo ⟨true, nm1⟩ st args w ≠ .error .assertNotInjectable) ∧
    Builder.build b cbId nm2 dev =
      .ok (⟨true, nm2⟩, ⟨b.properties, .buildF cbId, "(unknown function)", [], []⟩) ∧
    isInjectable ⟨true, nm2⟩ = true ∧
    helperFor dev ⟨true, nm2⟩ = .ok ⟨true, nm2⟩ ∧
    (∀ (mo : Owner) (st : Storage) (args : Args) (w : World),
      createHelper dev mo ⟨true, nm2⟩ st args w ≠ .error .assertNotInjectable) := by
  have hcr : ∀ (nm : String) (mo : Owner) (st : Storage) (args : Args) (w : World),
      createHelper dev mo ⟨true, nm⟩ st args w ≠ .error .assertNotInjectable := by
    intro nm mo st args w hcontra
    simp only [createHelper, isInjectable, Bool.not_true, Bool.and_false,
      Bool.false_eq_true, if_false] at hcontra
    cases hcn : constructNew dev st (some mo) w with
    | error e =>
      rw [hcn] at hcontra
      simp only [Except.error.injEq] at hcontra
      rw [hcontra] at hcn
      exact getInjected_not_injectable_err dev st mo w hcn
    | ok r =>
      rw [hcn] at hcontra
      exact absurd hcontra (by simp)
  refine ⟨?_, rfl, ?_, hcr nm1, ?_, rfl, ?_, hcr nm2⟩ <;>
    simp [Builder.into, Builder.build, constructorFor, helperFor, isInjectable]

/-- C10 witness: a concrete builder chain, with both finalizers, in a
development build, against a live owner. -/
theorem injectable_tagging_witness :
    Builder.into ⟨[.ownerR]⟩ 0 "f" true =
      .ok (⟨true, "f"⟩, ⟨[.ownerR], .intoF 0, "(unknown function)", [], []⟩) ∧
    isInjectable ⟨true, "f"⟩ = true ∧
    createHelper true ⟨2, false, false⟩ ⟨true, "f"⟩
      ⟨[.ownerR], .intoF 0, "(unknown function)", [], []⟩
      ⟨[.num 1], []⟩ World.init ≠ .error .assertNotInjectable :=
  ⟨(injectable_tagging ⟨[.ownerR]⟩ 0 0 "f" "g" true).1,
    (injectable_tagging ⟨[.ownerR]⟩ 0 0 "f" "g" true).2.1,
    (injectable_tagging ⟨[.ownerR]⟩ 0 0 "f" "g" true).2.2.2.1 ⟨2, false, false⟩
      ⟨[.ownerR], .intoF 0, "(unknown function)", [], []⟩ ⟨[.num 1], []⟩ World.init⟩

end ESH
